import Mathlib

set_option autoImplicit false

/-!
Verification of the virtual-host-gatherer core (gatherer.py) and of its two
backend provider modules (SUSECloud.py, NutanixAHV.py) against the
natural-language specification.  All definitions are shallow embeddings of the
Python source: Python dicts become ordered association lists with Python dict
assignment semantics (first occurrence replaced in place, new keys appended),
exceptions become `Except`, and each backend interaction is a field of an
explicit "world" record supplying the response of the corresponding
network/SDK call.
-/

namespace Gatherer

mutual
/-- JSON values, as produced by `json.load` / consumed by `json.dump`.
Object entries keep their insertion order, exactly like Python dicts.
Python floats are modelled by exact rationals (`flt`); the binary rounding of
IEEE doubles is abstracted away, which no claim here depends on.  The family
is a mutual inductive (object/array spines carry their own constructors) so
that every function on it is structurally recursive and kernel-evaluable. -/
inductive JValue where
  | null : JValue
  | bool (b : Bool) : JValue
  | num (n : Int) : JValue
  | flt (q : Rat) : JValue
  | str (s : String) : JValue
  | arr (xs : JList) : JValue
  | obj (o : JObj) : JValue

/-- Spine of a JSON array. -/
inductive JList where
  | nil : JList
  | cons (hd : JValue) (tl : JList) : JList

/-- Spine of a JSON object: ordered key/value entries, keys are strings. -/
inductive JObj where
  | nil : JObj
  | cons (k : String) (v : JValue) (tl : JObj) : JObj
end

end Gatherer

namespace Gatherer

/-- Convert an object spine to a plain list of entries. -/
def jobjToList : JObj → List (String × JValue)
  | .nil => []
  | .cons k v tl => (k, v) :: jobjToList tl

/-- Build an object spine from a list of entries. -/
def jobjOfList : List (String × JValue) → JObj
  | [] => .nil
  | (k, v) :: tl => .cons k v (jobjOfList tl)

/-- Keys of an object, in insertion order. -/
def jobjKeys : JObj → List String
  | .nil => []
  | .cons k _ tl => k :: jobjKeys tl

/-- Convert an array spine to a list of values. -/
def jlistToList : JList → List JValue
  | .nil => []
  | .cons hd tl => hd :: jlistToList tl

/-- Build an array spine from a list of values. -/
def jlistOfList : List JValue → JList
  | [] => .nil
  | hd :: tl => .cons hd (jlistOfList tl)

/-- Python `d[k]` lookup on an object spine (first matching key). -/
def jobjLookup : JObj → String → Option JValue
  | .nil, _ => none
  | .cons k v tl, key => if k = key then some v else jobjLookup tl key

/-- Python `d[k] = v` on an object spine: replace the value of the first
occurrence of `k` in place, or append a new entry at the end. -/
def jobjSet : JObj → String → JValue → JObj
  | .nil, key, val => .cons key val .nil
  | .cons k v tl, key, val =>
      if k = key then .cons k val tl else .cons k v (jobjSet tl key val)

/-- Python `d[k]` lookup on a string-keyed association list. -/
def lookupStr {ν : Type} : List (String × ν) → String → Option ν
  | [], _ => none
  | (k, v) :: tl, key => if k = key then some v else lookupStr tl key

/-- Python `d[k] = v` on a string-keyed association list. -/
def setStr {ν : Type} : List (String × ν) → String → ν → List (String × ν)
  | [], key, val => [(key, val)]
  | (k, v) :: tl, key, val =>
      if k = key then (k, val) :: tl else (k, v) :: setStr tl key val

mutual
/-- Python `==` on JSON values (used for dict keys).  Cross-type numeric
equalities of Python (`1 == 1.0`) are not identified; no node id in scope of
the claims mixes an int with an equal float. -/
def jvalBeq : JValue → JValue → Bool
  | .null, .null => true
  | .bool a, .bool b => a == b
  | .num a, .num b => a == b
  | .flt a, .flt b => decide (a = b)
  | .str a, .str b => a == b
  | .arr a, .arr b => jlistBeq a b
  | .obj a, .obj b => jobjBeq a b
  | _, _ => false

/-- Elementwise `==` on array spines. -/
def jlistBeq : JList → JList → Bool
  | .nil, .nil => true
  | .cons a atl, .cons b btl => jvalBeq a b && jlistBeq atl btl
  | _, _ => false

/-- Entrywise `==` on object spines. -/
def jobjBeq : JObj → JObj → Bool
  | .nil, .nil => true
  | .cons ak av atl, .cons bk bv btl =>
      ak == bk && jvalBeq av bv && jobjBeq atl btl
  | _, _ => false
end

/-- Python `d[k]` lookup on a JValue-keyed association list
(the inventory report is keyed by the raw `id` value of a node). -/
def lookupJ {ν : Type} : List (JValue × ν) → JValue → Option ν
  | [], _ => none
  | (k, v) :: tl, key => if jvalBeq k key then some v else lookupJ tl key

/-- Python `d[k] = v` on a JValue-keyed association list. -/
def setJ {ν : Type} : List (JValue × ν) → JValue → ν → List (JValue × ν)
  | [], key, val => [(key, val)]
  | (k, v) :: tl, key, val =>
      if jvalBeq k key then (k, val) :: tl else (k, v) :: setJ tl key val

/-- Number of entries of a JValue-keyed association list whose key equals
(Python `==`) the given key. -/
def countKeyJ {ν : Type} (d : List (JValue × ν)) (key : JValue) : Nat :=
  (d.filter (fun kv => jvalBeq kv.1 key)).length

/-! ## The JSON serializer
Model of CPython `json.dumps(value, sort_keys=..., indent=4,
separators=(",", ": "))` as called by `Gatherer._run` and `Gatherer.main`:
entries are emitted one per line, each line indented by 4 spaces per nesting
level, keys separated from values by `": "`, items separated by `",\n"`;
`sort_keys=True` is realised by pre-sorting every object of the tree by key
(CPython sorts each dict at emission time, which yields the same text). -/

/-- One lowercase hexadecimal digit. -/
def hexDigit (n : Nat) : Char :=
  if n < 10 then Char.ofNat (48 + n) else Char.ofNat (87 + n)

/-- Four lowercase hexadecimal digits, as in CPython api `\uXXXX` escapes. -/
def hex4 (n : Nat) : String :=
  String.mk [hexDigit (n / 4096 % 16), hexDigit (n / 256 % 16),
             hexDigit (n / 16 % 16), hexDigit (n % 16)]

/-- CPython `json` escaping of one character with the default
`ensure_ascii=True`: named escapes for the usual control characters, `\uXXXX`
(with surrogate pairs above the BMP) for other non-printable or non-ASCII
characters. -/
def escChar (c : Char) : String :=
  if c = '"' then "\\\""
  else if c = '\\' then "\\\\"
  else if c = '\n' then "\\n"
  else if c = '\t' then "\\t"
  else if c = '\r' then "\\r"
  else if c.toNat = 8 then "\\b"
  else if c.toNat = 12 then "\\f"
  else if c.toNat < 32 || c.toNat > 126 then
    if c.toNat ≥ 65536 then
      "\\u" ++ hex4 (55296 + (c.toNat - 65536) / 1024) ++
      "\\u" ++ hex4 (56320 + (c.toNat - 65536) % 1024)
    else "\\u" ++ hex4 c.toNat
  else String.singleton c

/-- A JSON string literal: quoted and escaped. -/
def quoteStr (s : String) : String :=
  "\"" ++ String.join (s.toList.map escChar) ++ "\""

/-- Decimal digits of the fractional part of a rational in `[0, 1)`, or
`none` if the expansion does not terminate within the fuel. -/
def fracDigitsAux : Nat → Rat → Option String
  | 0, _ => none
  | fuel + 1, r =>
      let r10 := r * 10
      let d := r10.floor
      let rest := r10 - (d : Rat)
      if rest = 0 then some (toString d)
      else
        match fracDigitsAux fuel rest with
        | some s => some (toString d ++ s)
        | none => none

/-- Model of CPython `repr` for a float, exact for values with a short
terminating decimal expansion (every value produced by this program).
Shortest-roundtrip rounding and scientific notation are not modelled; no
claim depends on the rendering of a float atom. -/
def floatRepr (q : Rat) : String :=
  let sign := if q < 0 then "-" else ""
  let a := if q < 0 then -q else q
  let ip := a.floor
  let fr := a - (ip : Rat)
  if fr = 0 then sign ++ toString ip ++ ".0"
  else
    match fracDigitsAux 30 fr with
    | some ds => sign ++ toString ip ++ "." ++ ds
    | none => sign ++ toString ip ++ ".NONTERMINATING"

/-- Indentation of a nesting level: 4 spaces per level (`indent=4`). -/
def pad (lvl : Nat) : String :=
  String.mk (List.replicate (4 * lvl) ' ')

/-- Join strings with a separator. -/
def joinSep (sep : String) : List String → String
  | [] => ""
  | [s] => s
  | s :: tl => s ++ sep ++ joinSep sep (tl)

mutual
/-- Emission of one JSON value at a nesting level, with `indent=4` and
`separators=(",", ": ")`, object entries in the order of the spine. -/
def render : JValue → Nat → String
  | .null, _ => "null"
  | .bool b, _ => if b then "true" else "false"
  | .num n, _ => toString n
  | .flt q, _ => floatRepr q
  | .str s, _ => quoteStr s
  | .arr .nil, _ => "[]"
  | .arr (.cons hd tl), lvl =>
      "[\n" ++ joinSep ",\n" (renderItems (.cons hd tl) (lvl + 1)) ++
      "\n" ++ pad lvl ++ "]"
  | .obj .nil, _ => "\x7b\x7d"
  | .obj (.cons k v tl), lvl =>
      "\x7b\n" ++ joinSep ",\n" (renderEntries (.cons k v tl) (lvl + 1)) ++
      "\n" ++ pad lvl ++ "\x7d"

/-- The lines of an array body, one per item. -/
def renderItems : JList → Nat → List String
  | .nil, _ => []
  | .cons hd tl, lvl => (pad lvl ++ render hd lvl) :: renderItems tl lvl

/-- The lines of an object body, one per entry: indentation, quoted key,
colon-space separator, value. -/
def renderEntries : JObj → Nat → List String
  | .nil, _ => []
  | .cons k v tl, lvl =>
      (pad lvl ++ quoteStr k ++ ": " ++ render v lvl) :: renderEntries tl lvl
end

/-- Stable insertion of an entry into a key-sorted entry list. -/
def insEntry (kv : String × JValue) : List (String × JValue) → List (String × JValue)
  | [] => [kv]
  | hd :: tl => if kv.1 ≤ hd.1 then kv :: hd :: tl else hd :: insEntry kv tl

/-- Insertion sort of object entries by key, the order `sort_keys=True`
emits them in. -/
def isortEntries : List (String × JValue) → List (String × JValue)
  | [] => []
  | kv :: tl => insEntry kv (isortEntries tl)

/-- Sort the entries of one object spine by key. -/
def sortEntries (o : JObj) : JObj :=
  jobjOfList (isortEntries (jobjToList o))

mutual
/-- Recursively sort every object of a JSON tree by key: the tree whose
in-order emission equals the `sort_keys=True` emission of the original. -/
def sortJson : JValue → JValue
  | .arr xs => .arr (sortJsonList xs)
  | .obj o => .obj (sortEntries (sortJsonObj o))
  | v => v

/-- `sortJson` on every element of an array spine. -/
def sortJsonList : JList → JList
  | .nil => .nil
  | .cons hd tl => .cons (sortJson hd) (sortJsonList tl)

/-- `sortJson` on every value of an object spine (keys untouched here). -/
def sortJsonObj : JObj → JObj
  | .nil => .nil
  | .cons k v tl => .cons k (sortJson v) (sortJsonObj tl)
end

/-- `json.dumps(v, sort_keys=sortKeys, indent=4, separators=(",", ": "))`. -/
def pyDumps (sortKeys : Bool) (v : JValue) : String :=
  render (if sortKeys then sortJson v else v) 0

/-- Text written to the destination path in collection mode
(`json.dump(output, f, sort_keys=True, indent=4, separators=(",", ": "))`). -/
def reportFileBytes (report : JObj) : String :=
  pyDumps true (.obj report)

/-- Text written to the default output stream in collection mode:
`print(json.dumps(...))` appends one newline to the same serialization. -/
def reportStdoutBytes (report : JObj) : String :=
  pyDumps true (.obj report) ++ "\n"

/-- Text written to the destination path in module-listing mode
(`json.dump(installed_modules, f, sort_keys=False, ...)`). -/
def listingFileBytes (mods : JObj) : String :=
  pyDumps false (.obj mods)

/-- Text printed to the default output stream in module-listing mode. -/
def listingStdoutBytes (mods : JObj) : String :=
  pyDumps false (.obj mods) ++ "\n"

/-! ## The redactor: `Gatherer._remove_passwords` -/

/-- A node descriptor: one element of the JSON input array, a mapping from
string keys to JSON values in insertion order. -/
def Node : Type := List (String × JValue)

/-- `Gatherer._remove_passwords`: `ret = indict.copy()`, then every key whose
`key.lower()` starts with `"pass"` has its value replaced by the fixed mask
`"**secret**"`.  The copy makes this a pure transformation; the input dict is
not touched. -/
def remove_passwords (indict : Node) : Node :=
  indict.map (fun kv =>
    if kv.1.toLower.startsWith "pass" then (kv.1, JValue.str "**secret**") else kv)

/-! ## The dispatch loop: `Gatherer._run`

A registered provider instance is abstracted by its two contract operations
used by the loop, `set_node` (may raise: `Except.error`) and `run`.  In the
source a worker is stateful (`set_node` stores the configuration `run` uses);
here `run` takes the node it was configured with, which is the same
information.  Only error-level log records are modelled; the debug dumps of
`verbose >= 2` do not affect any claim. -/

/-- The two contract operations of an instantiated provider that the
dispatch loop calls. -/
structure Worker where
  set_node : Node → Except String Unit
  run : Node → Except String JValue

/-- Error-level log records emitted by the core, one constructor per
`self.log.error(...)` call site, carrying the formatted-in data. -/
inductive LogMsg where
  | undefinedModule : LogMsg
  | unsupportedModule (modname : JValue) : LogMsg
  | notGathererModule (name : String) : LogMsg
  | brokenSkipping (name : String) : LogMsg
  | brokenAborted (name : String) : LogMsg

/-- State threaded through the dispatch loop: the report built so far
(`output`, a Python dict keyed by the raw id value), the error log, and a
counter for generated identifiers. -/
structure LoopState where
  output : List (JValue × JValue)
  errors : List LogMsg
  fresh : Nat

/-- Append one error-level log record. -/
def addErr (st : LoopState) (m : LogMsg) : LoopState :=
  { st with errors := st.errors ++ [m] }

/-- Modelled from the spec: `str(uuid.uuid4())`, "a freshly generated unique
identifier (not reproducible across runs, only required to be unique within
the run)"; modelled as a counter-indexed string, unique within the run. -/
def uuidStr (n : Nat) : String :=
  "00000000-0000-4000-8000-" ++ toString n

/-- One iteration of the loop in `Gatherer._run`: skip (with one logged
error) a node without a `"module"` key or whose module is not registered;
otherwise `worker.set_node(node)` then
`output[node.get("id", str(uuid.uuid4()))] = worker.run()`, where exceptions
of `set_node`/`run` propagate (there is no try/except in the loop).  A
`"module"` value that is an unhashable Python value (list/dict) makes the
membership test itself raise a TypeError. -/
def processNode (modules : List (String × Worker)) (st : LoopState) (node : Node) :
    Except String LoopState :=
  match lookupStr node "module" with
  | none => .ok (addErr st .undefinedModule)
  | some (.arr _) => .error "TypeError: unhashable type: list"
  | some (.obj _) => .error "TypeError: unhashable type: dict"
  | some (.str modname) =>
      match lookupStr modules modname with
      | none => .ok (addErr st (.unsupportedModule (.str modname)))
      | some worker =>
          match worker.set_node node with
          | .error e => .error e
          | .ok _ =>
              match worker.run node with
              | .error e => .error e
              | .ok res =>
                  match lookupStr node "id" with
                  | some idv => .ok ⟨setJ st.output idv res, st.errors, st.fresh⟩
                  | none =>
                      .ok ⟨setJ st.output (.str (uuidStr st.fresh)) res,
                           st.errors, st.fresh + 1⟩
  | some mv => .ok (addErr st (.unsupportedModule mv))

/-- The loop of `Gatherer._run` over the input array of node descriptors:
strictly sequential, and an exception escaping one iteration propagates
(aborting the remaining nodes). -/
def gRun (modules : List (String × Worker)) : List Node → LoopState → Except String LoopState
  | [], st => .ok st
  | n :: ns, st =>
      match processNode modules st n with
      | .error e => .error e
      | .ok st2 => gRun modules ns st2

/-- The loop state at the start of a run: empty report, no errors logged. -/
def initState : LoopState := ⟨[], [], 0⟩

/-! ## Writing the report to a destination path

`Gatherer._run` does `with open(self.options.outfile, "w", ...) as f:
json.dump(output, f, ...)`.  Opening with mode `"w"` truncates (or creates)
the destination immediately; `json.dump` then streams the encoder's chunks
into the file one `write` at a time.  The model makes the chunk stream
explicit (one character per chunk, the finest refinement of the encoder's
chunks) and allows injecting a failure after a given number of written
chunks; the destination's final contents are returned (`none` = the file
does not exist). -/

/-- Write chunks in order until done or until the failure point is hit. -/
def writeChunks : List String → Option Nat → String → String
  | [], _, acc => acc
  | _ :: _, some 0, acc => acc
  | c :: cs, some (k + 1), acc => writeChunks cs (some k) (acc ++ c)
  | c :: cs, none, acc => writeChunks cs none (acc ++ c)

/-- The encoder's chunk stream for a serialized text. -/
def encoderChunks (s : String) : List String :=
  s.toList.map (fun c => String.singleton c)

/-- Final contents of the destination file after `open(outfile, "w")` (which
truncates it, whatever `prior` contents it had or whether it existed) and a
streamed `json.dump` of the report that may fail after `failAfter` chunks. -/
def dumpReportToPath (prior : Option String) (report : JObj)
    (failAfter : Option Nat) : Option String :=
  some (writeChunks (encoderChunks (reportFileBytes report)) failAfter "")

/-! ## Provider discovery: `Gatherer._load_modules` -/

/-- What loading one candidate module file does, from the point of view of
the `try` block in `_load_modules`: the import raises `ImportError`; or the
load/`getattr`/instantiation/`valid()` raises one of
`TypeError`/`AttributeError`/`NotImplementedError`; or `issubclass(class_,
WorkerInterface)` is false; or `instance.valid()` returns false; or the
candidate yields a usable worker instance. -/
inductive LoadOutcome where
  | importError : LoadOutcome
  | brokenLoad : LoadOutcome
  | notSubclass : LoadOutcome
  | invalid : LoadOutcome
  | usable (w : Worker) : LoadOutcome

/-- A candidate module file found in the modules directory. -/
structure Candidate where
  name : String
  outcome : LoadOutcome

/-- Registry state during discovery: `self.modules` plus the error log. -/
structure RegState where
  modules : List (String × Worker)
  errors : List LogMsg

/-- One iteration of the discovery loop in `_load_modules`: a candidate that
is not a `WorkerInterface` subclass, or that raises
`TypeError`/`AttributeError`/`NotImplementedError`, or whose `valid()` is
false, is logged and skipped; a usable candidate is registered under its
name; an `ImportError` is re-raised, aborting discovery. -/
def loadOne (st : RegState) (c : Candidate) : Except (String × RegState) RegState :=
  match c.outcome with
  | .importError => .error (c.name, st)
  | .brokenLoad => .ok { st with errors := st.errors ++ [.brokenSkipping c.name] }
  | .notSubclass => .ok { st with errors := st.errors ++ [.notGathererModule c.name] }
  | .invalid => .ok { st with errors := st.errors ++ [.brokenAborted c.name] }
  | .usable w => .ok { st with modules := setStr st.modules c.name w }

/-- The discovery loop of `_load_modules` over the candidate module files,
in directory-listing order. -/
def loadModules : List Candidate → RegState → Except (String × RegState) RegState
  | [], st => .ok st
  | c :: cs, st =>
      match loadOne st c with
      | .error e => .error e
      | .ok st2 => loadModules cs st2

/-! ## Shared provider helpers -/

/-- Python `str()` of a parsed JSON value, as interpolated by f-strings.
The `repr`-style rendering of containers is abstracted (no claim touches
it); atoms match CPython (`None`, `True`/`False`, decimal ints). -/
def pyFormat : JValue → String
  | .null => "None"
  | .bool b => if b then "True" else "False"
  | .num n => toString n
  | .flt q => floatRepr q
  | .str s => s
  | .arr _ => "[...]"
  | .obj _ => "[...]"

/-- Python `d[k]` on a parsed JSON value: `KeyError` if the key is absent,
`TypeError` if the value is not a dict. -/
def jIndex (v : JValue) (k : String) : Except String JValue :=
  match v with
  | .obj o =>
      match jobjLookup o k with
      | some x => .ok x
      | none => .error ("KeyError: " ++ k)
  | _ => .error ("TypeError: value is not subscriptable: " ++ k)

/-- Python `d[k]` where the program uses the result as a string (a dict key
or a log field).  The backends under scrutiny return strings here; a
non-string is abstracted as a type error. -/
def jIndexStr (v : JValue) (k : String) : Except String String := do
  match ← jIndex v k with
  | .str s => .ok s
  | _ => .error ("TypeError: expected a string at key: " ++ k)

/-- Python `d.get(k, default)` on a parsed JSON value: `AttributeError` if
the value is not a dict (only dicts have `.get`). -/
def pyGetD (v : JValue) (k : String) (dflt : JValue) : Except String JValue :=
  match v with
  | .obj o => .ok ((jobjLookup o k).getD dflt)
  | _ => .error ("AttributeError: object has no attribute get: " ++ k)

/-- Python iteration over a parsed JSON value where the program expects a
list (`for x in v`): non-arrays are abstracted as a type error. -/
def jItems (v : JValue) : Except String (List JValue) :=
  match v with
  | .arr xs => .ok (jlistToList xs)
  | _ => .error "TypeError: value is not iterable"

/-- Python `float(x)` on a parsed JSON value.  Numeric strings are abstracted
as a type error (the backend fields converted this way are numbers). -/
def pyFloat (v : JValue) : Except String Rat :=
  match v with
  | .num n => .ok (n : Rat)
  | .flt q => .ok q
  | .bool b => .ok (if b then 1 else 0)
  | _ => .error "TypeError: float() argument must be a number"

/-- Python `int(q)` on a float: truncation toward zero. -/
def pyTrunc (q : Rat) : Int :=
  if q < 0 then -((-q).floor) else q.floor

/-- Modelled from the spec: `WorkerInterface._validate_parameters` lives in
`gatherer/modules/__init__.py`, which is not part of the sources under
scrutiny.  Per the spec, `set_node(descriptor)` "validates that all required
keys are present in the descriptor, raising a parameter error if not"; the
required keys are taken to be the keys of the provider's default-parameter
schema (`parameters()`). -/
def validateParameters (params : List (String × JValue)) (node : Node) :
    Except String Unit :=
  if params.all (fun p => (lookupStr node p.1).isSome) then .ok ()
  else .error "AttributeError: Not all parameters were provided"

/-! ## The SUSECloud provider (SUSECloud.py) -/

/-- `SUSECloud.DEFAULT_PARAMETERS`: the ordered default-parameter schema. -/
def suseDefaultParameters : List (String × JValue) :=
  [("hostname", .str ""), ("port", .num 5000), ("username", .str ""),
   ("password", .str ""), ("protocol", .str "https"), ("tenant", .str "openstack")]

/-- Connection configuration stored on the worker by `SUSECloud.set_node`. -/
structure SuseConfig where
  host : JValue
  port : JValue
  user : JValue
  password : JValue
  tenant : JValue

/-- `SUSECloud.set_node`: validate the parameters (re-raising the validation
error after logging it), then store `hostname`, `port` (default 5000),
`username`, `password` and `tenant`.  The `protocol` value is never read. -/
def suseSetNode (node : Node) : Except String SuseConfig := do
  let _ ← validateParameters suseDefaultParameters node
  let host ← match lookupStr node "hostname" with
    | some v => Except.ok v
    | none => Except.error "KeyError: hostname"
  let port := (lookupStr node "port").getD (.num 5000)
  let user ← match lookupStr node "username" with
    | some v => Except.ok v
    | none => Except.error "KeyError: username"
  let password ← match lookupStr node "password" with
    | some v => Except.ok v
    | none => Except.error "KeyError: password"
  let tenant ← match lookupStr node "tenant" with
    | some v => Except.ok v
    | none => Except.error "KeyError: tenant"
  .ok ⟨host, port, user, password, tenant⟩

/-- The endpoint URL built by `SUSECloud.run`:
`f"http://{self.host}:{self.port}/v2.0/"` — the scheme is the fixed literal
`http`. -/
def suseUrl (cfg : SuseConfig) : String :=
  "http://" ++ pyFormat cfg.host ++ ":" ++ pyFormat cfg.port ++ "/v2.0/"

/-- One hypervisor as returned by `novaclient`'s `hypervisors.list()`.
`cpu_info` holds the result of `json.loads(hyp.cpu_info)` (or the parse
error it raises). -/
structure SuseHyp where
  hypervisor_hostname : String
  hypervisor_type : String
  hypervisor_version : Int
  cpu_info : Except String JValue
  memory_mb : Int

/-- One result of `hypervisors.search(hostname, True)`: `servers` is `none`
when the object has no `servers` attribute (`hasattr` is false), otherwise
the list of server dicts. -/
structure SuseSearchResult where
  servers : Option (List JValue)

/-- The novaclient backend world of one `SUSECloud.run` call: the outcome of
client construction and of each SDK call. -/
structure SuseWorld where
  clientInit : String → Except String Unit
  hypervisorsList : Except String (List SuseHyp)
  search : String → Except String (List SuseSearchResult)

/-- The hypervisor types `SUSECloud.run` passes through (anything else is
normalized to `"qemu"`). -/
def suseKnownTypes : List String :=
  ["fully_virtualized", "para_virtualized", "qemu", "vmware", "hyperv",
   "virtage", "virtualbox"]

/-- The inner loop over `cloud_client.hypervisors.search(hostname, True)`
results: for every result with a `servers` attribute, store
`vms[server["name"]] = server["uuid"]`. -/
def suseVmsAdd : List JValue → List (String × JValue) →
    Except String (List (String × JValue))
  | [], vms => .ok vms
  | s :: tl, vms => do
      let name ← jIndexStr s "name"
      let uuid ← jIndex s "uuid"
      suseVmsAdd tl (setStr vms name uuid)

/-- Fold of `suseVmsAdd` over all search results. -/
def suseVmsFromResults : List SuseSearchResult → List (String × JValue) →
    Except String (List (String × JValue))
  | [], vms => .ok vms
  | r :: tl, vms =>
      match r.servers with
      | none => suseVmsFromResults tl vms
      | some svs => do
          let vms2 ← suseVmsAdd svs vms
          suseVmsFromResults tl vms2

/-- The host record `SUSECloud.run` builds for one hypervisor, including the
`vms` mapping filled from the search results.  Any error raised while
reading `cpu_info` or searching propagates: `SUSECloud.run` has no
try/except. -/
def suseHypRecord (w : SuseWorld) (hyp : SuseHyp) : Except String JValue := do
  let lower := hyp.hypervisor_type.toLower
  let htype := if suseKnownTypes.contains lower then lower else "qemu"
  let cpuInfo ← hyp.cpu_info
  let topo ← pyGetD cpuInfo "topology" (.obj .nil)
  let sockets ← pyGetD topo "sockets" .null
  let cores ← pyGetD topo "cores" .null
  let threads ← pyGetD topo "threads" .null
  let vendor ← pyGetD cpuInfo "vendor" .null
  let model ← pyGetD cpuInfo "model" .null
  let arch ← pyGetD cpuInfo "arch" .null
  let results ← w.search hyp.hypervisor_hostname
  let vms ← suseVmsFromResults results []
  .ok (.obj (jobjOfList
    [("name", .str hyp.hypervisor_hostname),
     ("hostIdentifier", .str hyp.hypervisor_hostname),
     ("type", .str htype),
     ("os", .str hyp.hypervisor_type),
     ("osVersion", .num hyp.hypervisor_version),
     ("totalCpuSockets", sockets),
     ("totalCpuCores", cores),
     ("totalCpuThreads", threads),
     ("cpuMhz", .num 0),
     ("cpuVendor", vendor),
     ("cpuDescription", model),
     ("cpuArch", arch),
     ("ramMb", .num hyp.memory_mb),
     ("vms", .obj (jobjOfList vms))]))

/-- The loop of `SUSECloud.run` over `hypervisors.list()`, building
`output[hyp.hypervisor_hostname] = {...}`. -/
def suseCollect (w : SuseWorld) : List SuseHyp → List (String × JValue) →
    Except String (List (String × JValue))
  | [], out => .ok out
  | hyp :: tl, out => do
      let record ← suseHypRecord w hyp
      suseCollect w tl (setStr out hyp.hypervisor_hostname record)

/-- `SUSECloud.run`: build the URL, construct the client, list hypervisors
and build the output mapping.  There is no try/except anywhere in the body:
every backend error (connectivity, authentication, malformed `cpu_info`,
missing response keys) propagates to the caller. -/
def suseRun (cfg : SuseConfig) (w : SuseWorld) :
    Except String (List (String × JValue)) := do
  let url := suseUrl cfg
  let _ ← w.clientInit url
  let hyps ← w.hypervisorsList
  suseCollect w hyps []

/-- The SUSECloud provider packaged as a dispatch-loop worker: `set_node`
validates and stores the configuration, `run` re-derives it from the node it
was configured with (the worker is stateless in the embedding) and queries
the world. -/
def suseWorker (w : SuseWorld) : Worker where
  set_node := fun node => (suseSetNode node).map (fun _ => ())
  run := fun node =>
    match suseSetNode node with
    | .error e => .error e
    | .ok cfg => (suseRun cfg w).map (fun out => .obj (jobjOfList out))

/-! ## The NutanixAHV provider (NutanixAHV.py)

`NutanixAHV.run` wraps its whole body in `try: ... except Exception as exc:
self.log.error(exc)` and then returns `output`, so any backend error leaves
`run` with the (possibly partial) `output` dict built so far and one logged
error.  The body is modelled as a computation that threads `output` and, on
an exception, reports it together with the `output` state at that point. -/

/-- The report mapping a provider builds: host name to host record. -/
abbrev POut := List (String × JValue)

/-- Lift a fallible step into the try-body: an exception carries the
`output` built so far. -/
def liftE {α : Type} (out : POut) : Except String α → Except (String × POut) α
  | .ok a => .ok a
  | .error e => .error (e, out)

/-- The Prism REST backend world of one `NutanixAHV.run` call: the result of
`json.load(urlopen(...))` on the hosts and vms endpoints. -/
structure NtxWorld where
  hostsResp : Except String JValue
  vmsResp : Except String JValue

/-- `NutanixAHV.VMSTATE`: power-state normalization table. -/
def ntxVmState : List (String × String) :=
  [("off", "stopped"), ("on", "running"), ("powering_on", "powering_on"),
   ("shutting_down", "shutting_down"), ("powering_off", "powering_off"),
   ("pausing", "pausing"), ("suspending", "suspending"),
   ("suspended", "suspended"), ("resuming", "resuming"),
   ("resetting", "resetting"), ("migrating", "migrating")]

/-- `self.VMSTATE.get(vm["power_state"], "unknown")`.  A non-string
power-state value falls back to `"unknown"` (in CPython an unhashable value
there would raise instead; the backend returns strings). -/
def ntxStateOf (v : JValue) : String :=
  match v with
  | .str s => (lookupStr ntxVmState s).getD "unknown"
  | _ => "unknown"

/-- The first debug loop: `for host in hosts_list["entities"]:
log.debug(..., host["name"], host["uuid"])` — the key accesses can raise. -/
def ntxDebugHosts (out : POut) : List JValue → Except (String × POut) Unit
  | [] => .ok ()
  | h :: tl => do
      let _ ← liftE out (jIndex h "name")
      let _ ← liftE out (jIndex h "uuid")
      ntxDebugHosts out tl

/-- The second debug loop: `for vm in vms_list["entities"]: log.debug(...,
vm["name"], vm.get("host_uuid"), vm["power_state"])`. -/
def ntxDebugVms (out : POut) : List JValue → Except (String × POut) Unit
  | [] => .ok ()
  | vm :: tl => do
      let _ ← liftE out (jIndex vm "name")
      let _ ← liftE out (pyGetD vm "host_uuid" .null)
      let _ ← liftE out (jIndex vm "power_state")
      ntxDebugVms out tl

/-- The host record literal built for one entity of the hosts response, in
the evaluation order of the source's dict literal. -/
def ntxHostRecord (host : JValue) : Except String JValue := do
  let name ← jIndex host "name"
  let fullName ← jIndex host "hypervisor_full_name"
  let sockets ← jIndex host "num_cpu_sockets"
  let cores ← jIndex host "num_cpu_cores"
  let threads ← jIndex host "num_cpu_threads"
  let hz ← jIndex host "cpu_capacity_in_hz"
  let hzF ← pyFloat hz
  let modelName ← jIndex host "cpu_model"
  let memBytes ← jIndex host "memory_capacity_in_bytes"
  let memF ← pyFloat memBytes
  .ok (.obj (jobjOfList
    [("name", name),
     ("hostIdentifier", name),
     ("type", .str "nutanix"),
     ("os", .str "Nutanix AHV"),
     ("osVersion", fullName),
     ("totalCpuSockets", sockets),
     ("totalCpuCores", cores),
     ("totalCpuThreads", threads),
     ("cpuMhz", .flt (hzF / 1000000)),
     ("cpuDescription", modelName),
     ("cpuArch", .str "x86_64"),
     ("ramMb", .num (pyTrunc (memF / (1024 * 1024)))),
     ("vms", .obj .nil),
     ("optionalVmData", .obj .nil)]))

/-- Inner object stored under a key of a record (empty if absent — by
construction `"vms"` and `"optionalVmData"` are present objects). -/
def jobjGetObj (o : JObj) (k : String) : JObj :=
  match jobjLookup o k with
  | some (.obj inner) => inner
  | _ => .nil

/-- The three mutations `output[host]["vms"][name] = uuid;
output[host]["optionalVmData"][name] = {};
output[host]["optionalVmData"][name]["vmState"] = state`. -/
def ntxAddVm (out : POut) (hostKey vmName : String) (vmUuid : JValue)
    (state : String) : POut :=
  match lookupStr out hostKey with
  | some (.obj o) =>
      let vms := jobjSet (jobjGetObj o "vms") vmName vmUuid
      let ovd := jobjSet (jobjGetObj o "optionalVmData") vmName
        (.obj (.cons "vmState" (.str state) .nil))
      setStr out hostKey
        (.obj (jobjSet (jobjSet o "vms" (.obj vms)) "optionalVmData" (.obj ovd)))
  | _ => out

/-- The loop over `filter(lambda x: x.get("host_uuid", "") == host["uuid"],
vms_list["entities"])` for one host. -/
def ntxVmsForHost (hostKey : String) (huuid : JValue) :
    List JValue → POut → Except (String × POut) POut
  | [], out => .ok out
  | vm :: tl, out =>
      match pyGetD vm "host_uuid" (.str "") with
      | .error e => .error (e, out)
      | .ok hu =>
          if jvalBeq hu huuid then
            match jIndexStr vm "name" with
            | .error e => .error (e, out)
            | .ok vmName =>
                match jIndex vm "uuid" with
                | .error e => .error (e, out)
                | .ok vmUuid =>
                    match jIndex vm "power_state" with
                    | .error e => .error (e, out)
                    | .ok stateV =>
                        ntxVmsForHost hostKey huuid tl
                          (ntxAddVm out hostKey vmName vmUuid (ntxStateOf stateV))
          else ntxVmsForHost hostKey huuid tl out

/-- The build loop over `hosts_list["entities"]`: insert the host record,
then fill its `vms`/`optionalVmData` from the vms response. -/
def ntxBuildHosts (vmsEnt : List JValue) :
    List JValue → POut → Except (String × POut) POut
  | [], out => .ok out
  | host :: tl, out =>
      match ntxHostRecord host with
      | .error e => .error (e, out)
      | .ok record =>
          match jIndexStr host "name" with
          | .error e => .error (e, out)
          | .ok hostKey =>
              let out2 := setStr out hostKey record
              match jIndex host "uuid" with
              | .error e => .error (e, out2)
              | .ok huuid =>
                  match ntxVmsForHost hostKey huuid vmsEnt out2 with
                  | .error e => .error e
                  | .ok out3 => ntxBuildHosts vmsEnt tl out3

/-- The literal fake host record collecting VMs not attached to any host
(note: the source gives it no `totalCpuThreads` and no `cpuDescription`). -/
def ntxDetachedRecord : JValue :=
  .obj (jobjOfList
    [("name", .str "Nutanix-AHV-DetachedVMs"),
     ("hostIdentifier", .str "Nutanix-AHV-DetachedVMs"),
     ("type", .str "nutanix"),
     ("os", .str "Nutanix AHV"),
     ("osVersion", .str "Fake Host"),
     ("totalCpuSockets", .num 0),
     ("totalCpuCores", .num 0),
     ("cpuMhz", .num 0),
     ("cpuArch", .str "x86_64"),
     ("ramMb", .num 0),
     ("vms", .obj .nil),
     ("optionalVmData", .obj .nil)])

/-- The loop over `filter(lambda x: x.get("host_uuid", "missing") ==
"missing", vms_list["entities"])` filling the fake host. -/
def ntxVmsDetached : List JValue → POut → Except (String × POut) POut
  | [], out => .ok out
  | vm :: tl, out =>
      match pyGetD vm "host_uuid" (.str "missing") with
      | .error e => .error (e, out)
      | .ok hu =>
          if jvalBeq hu (.str "missing") then
            match jIndexStr vm "name" with
            | .error e => .error (e, out)
            | .ok vmName =>
                match jIndex vm "uuid" with
                | .error e => .error (e, out)
                | .ok vmUuid =>
                    match jIndex vm "power_state" with
                    | .error e => .error (e, out)
                    | .ok stateV =>
                        ntxVmsDetached tl
                          (ntxAddVm out "Nutanix-AHV-DetachedVMs" vmName vmUuid
                            (ntxStateOf stateV))
          else ntxVmsDetached tl out

/-- The whole `try:` block of `NutanixAHV.run`, threading the `output` dict
so that an exception reports the partial mapping built so far. -/
def ntxTryBody (w : NtxWorld) : Except (String × POut) POut := do
  let hosts ← liftE [] w.hostsResp
  let vms ← liftE [] w.vmsResp
  let hostsEntV ← liftE [] (jIndex hosts "entities")
  let hostsEnt ← liftE [] (jItems hostsEntV)
  let _ ← ntxDebugHosts [] hostsEnt
  let vmsEntV ← liftE [] (jIndex vms "entities")
  let vmsEnt ← liftE [] (jItems vmsEntV)
  let _ ← ntxDebugVms [] vmsEnt
  let out ← ntxBuildHosts vmsEnt hostsEnt []
  let out2 := setStr out "Nutanix-AHV-DetachedVMs" ntxDetachedRecord
  ntxVmsDetached vmsEnt out2

/-- `NutanixAHV.run`: the try-body under `except Exception as exc:
self.log.error(exc)`, then `return output` — every backend error is caught
and logged, and the mapping gathered up to the failure is returned. -/
def ntxRun (w : NtxWorld) : POut × List String :=
  match ntxTryBody w with
  | .ok out => (out, [])
  | .error (e, out) => (out, [e])

/-! ## Recursive key-sortedness (for the serialization-layout claim) -/

mutual
/-- Every object anywhere in a JSON tree has its keys in lexicographically
sorted order. -/
def allKeysSortedVal : JValue → Bool
  | .arr xs => allKeysSortedList xs
  | .obj o =>
      decide (List.Sorted (fun a b : String => a ≤ b) (jobjKeys o))
        && allKeysSortedObj o
  | _ => true

/-- `allKeysSortedVal` on every element of an array spine. -/
def allKeysSortedList : JList → Bool
  | .nil => true
  | .cons hd tl => allKeysSortedVal hd && allKeysSortedList tl

/-- `allKeysSortedVal` on every value of an object spine. -/
def allKeysSortedObj : JObj → Bool
  | .nil => true
  | .cons _ v tl => allKeysSortedVal v && allKeysSortedObj tl
end

/-- All values of an entry list have recursively sorted keys. -/
def allEntriesSorted (l : List (String × JValue)) : Bool :=
  l.all (fun kv => allKeysSortedVal kv.2)

/-! ## Concrete fixtures used by the counterexamples and witnesses -/

/-- A SUSECloud backend world in which every call succeeds and there are no
hypervisors. -/
def c2World : SuseWorld :=
  ⟨fun _ => .ok (), .ok [], fun _ => .ok []⟩

/-- A registry with the SUSECloud provider. -/
def c2Modules : List (String × Worker) := [("SUSECloud", suseWorker c2World)]

/-- A node naming SUSECloud but missing most of its required parameters:
`set_node` raises the parameter-validation error. -/
def c2BadNode : Node :=
  [("module", JValue.str "SUSECloud"), ("id", JValue.str "a"),
   ("hostname", JValue.str "h")]

/-- A fully parameterized SUSECloud node that processes successfully. -/
def c2GoodNode : Node :=
  [("module", JValue.str "SUSECloud"), ("id", JValue.str "b"),
   ("hostname", JValue.str "h"), ("port", JValue.num 5000),
   ("username", JValue.str "u"), ("password", JValue.str "p"),
   ("protocol", JValue.str "https"), ("tenant", JValue.str "t")]

/-- A worker whose `set_node` always raises. -/
def badSetWorker : Worker := ⟨fun _ => .error "boom", fun _ => .ok .null⟩

/-- A worker whose `set_node` succeeds and whose `run` always raises. -/
def badRunWorker : Worker := ⟨fun _ => .ok (), fun _ => .error "crash"⟩

/-- A worker returning the host mapping `1`. -/
def constWorker1 : Worker := ⟨fun _ => .ok (), fun _ => .ok (.num 1)⟩

/-- A worker returning the host mapping `2`. -/
def constWorker2 : Worker := ⟨fun _ => .ok (), fun _ => .ok (.num 2)⟩

/-- A concrete SUSECloud configuration. -/
def suseCfg0 : SuseConfig :=
  ⟨.str "h", .num 5000, .str "u", .str "p", .str "t"⟩

/-- A SUSECloud world whose `hypervisors.list()` call raises a connection
error. -/
def suseFailWorld : SuseWorld :=
  ⟨fun _ => .ok (), .error "Connection refused", fun _ => .ok []⟩

/-- A hosts entity with every field `NutanixAHV.run` reads. -/
def ntxHost1 : JValue :=
  .obj (jobjOfList [("name", .str "h1"), ("uuid", .str "u1"),
    ("hypervisor_full_name", .str "AHV 5"), ("num_cpu_sockets", .num 2),
    ("num_cpu_cores", .num 8), ("num_cpu_threads", .num 16),
    ("cpu_capacity_in_hz", .num 2000000), ("cpu_model", .str "Xeon"),
    ("memory_capacity_in_bytes", .num 1048576)])

/-- A hosts entity missing `num_cpu_sockets`: building its record raises a
`KeyError` inside the `try` block. -/
def ntxHost2 : JValue :=
  .obj (jobjOfList [("name", .str "h2"), ("uuid", .str "u2"),
    ("hypervisor_full_name", .str "AHV 5")])

/-- A vms entity attached to `ntxHost1`. -/
def ntxVm1 : JValue :=
  .obj (jobjOfList [("name", .str "vm1"), ("uuid", .str "vmu1"),
    ("host_uuid", .str "u1"), ("power_state", .str "on")])

/-- A Nutanix world in which the second host entity is malformed, so the
collection fails halfway through. -/
def ntxPartialWorld : NtxWorld :=
  ⟨.ok (.obj (.cons "entities" (.arr (jlistOfList [ntxHost1, ntxHost2])) .nil)),
   .ok (.obj (.cons "entities" (.arr (jlistOfList [ntxVm1])) .nil))⟩

/-- The mapping gathered before the failure in `ntxPartialWorld`: the full
record of the first host, including its attached VM.  The two numeric fields
carry the exact arithmetic the source performs (`cpuMhz` is
`2000000 / 10⁶ = 2` MHz, `ramMb` is `int(1048576 / 2²⁰) = 1` MB). -/
def ntxPartialExpected : POut :=
  [("h1", .obj (jobjOfList
    [("name", .str "h1"),
     ("hostIdentifier", .str "h1"),
     ("type", .str "nutanix"),
     ("os", .str "Nutanix AHV"),
     ("osVersion", .str "AHV 5"),
     ("totalCpuSockets", .num 2),
     ("totalCpuCores", .num 8),
     ("totalCpuThreads", .num 16),
     ("cpuMhz", .flt (((2000000 : Int) : Rat) / 1000000)),
     ("cpuDescription", .str "Xeon"),
     ("cpuArch", .str "x86_64"),
     ("ramMb", .num (pyTrunc (((1048576 : Int) : Rat) / (1024 * 1024)))),
     ("vms", .obj (.cons "vm1" (.str "vmu1") .nil)),
     ("optionalVmData", .obj (.cons "vm1"
        (.obj (.cons "vmState" (.str "running") .nil)) .nil))]))]

/-- A Nutanix world whose first request fails with a connection error. -/
def ntxFailWorld : NtxWorld := ⟨.error "urlopen error", .ok .null⟩

/-! ## Helper lemmas -/

mutual
/-- `jvalBeq` is reflexive. -/
theorem jvalBeq_refl : ∀ v : JValue, jvalBeq v v = true
  | .null => rfl
  | .bool b => by simp [jvalBeq]
  | .num n => by simp [jvalBeq]
  | .flt q => by simp [jvalBeq]
  | .str s => by simp [jvalBeq]
  | .arr xs => by simp [jvalBeq, jlistBeq_refl xs]
  | .obj o => by simp [jvalBeq, jobjBeq_refl o]

/-- `jlistBeq` is reflexive. -/
theorem jlistBeq_refl : ∀ xs : JList, jlistBeq xs xs = true
  | .nil => rfl
  | .cons hd tl => by simp [jlistBeq, jvalBeq_refl hd, jlistBeq_refl tl]

/-- `jobjBeq` is reflexive. -/
theorem jobjBeq_refl : ∀ o : JObj, jobjBeq o o = true
  | .nil => rfl
  | .cons k v tl => by simp [jobjBeq, jvalBeq_refl v, jobjBeq_refl tl]
end

theorem lookupJ_setJ_self {ν : Type} (key : JValue) (val : ν) :
    ∀ d : List (JValue × ν), lookupJ (setJ d key val) key = some val := by
  intro d
  induction d with
  | nil => simp [setJ, lookupJ, jvalBeq_refl]
  | cons hd tl ih =>
      by_cases h : jvalBeq hd.1 key
      · simp [setJ, h, lookupJ]
      · simp [setJ, h, lookupJ, ih]

theorem countKeyJ_setJ {ν : Type} (key : JValue) (val : ν) :
    ∀ d : List (JValue × ν),
      countKeyJ (setJ d key val) key = max 1 (countKeyJ d key) := by
  intro d
  induction d with
  | nil => simp [setJ, countKeyJ, jvalBeq_refl]
  | cons hd tl ih =>
      by_cases h : jvalBeq hd.1 key
      · simp [setJ, h, countKeyJ, List.filter]
      · have := ih
        simp [countKeyJ] at this
        simp [setJ, h, countKeyJ, List.filter, this]

theorem append_mk_nil (acc : String) : acc ++ String.mk [] = acc := by
  apply String.ext
  simp [String.data_append]

theorem append_mk_cons (acc : String) (c : Char) (cs : List Char) :
    (acc ++ String.singleton c) ++ String.mk cs = acc ++ String.mk (c :: cs) := by
  apply String.ext
  simp [String.data_append, String.singleton]

theorem lookup_maskIf (p : String → Bool) (m : JValue) (k : String) :
    ∀ d : Node,
      lookupStr (d.map (fun kv => if p kv.1 then (kv.1, m) else kv)) k
        = (lookupStr d k).map (fun v => if p k then m else v)
  | [] => by simp [lookupStr]
  | (k1, v1) :: tl => by
      simp only [List.map_cons]
      by_cases hc : p k1
      · rw [if_pos hc]
        by_cases hk : k1 = k
        · subst hk; simp [lookupStr, hc]
        · simp [lookupStr, hk, lookup_maskIf p m k tl]
      · rw [if_neg hc]
        by_cases hk : k1 = k
        · subst hk; simp [lookupStr, hc]
        · simp [lookupStr, hk, lookup_maskIf p m k tl]

theorem keys_maskIf (p : String → Bool) (m : JValue) :
    ∀ d : Node,
      (d.map (fun kv => if p kv.1 then (kv.1, m) else kv)).map Prod.fst
        = d.map Prod.fst
  | [] => rfl
  | (k1, v1) :: tl => by
      simp only [List.map_cons]
      by_cases hc : p k1
      · rw [if_pos hc]; simp [keys_maskIf p m tl]
      · rw [if_neg hc]; simp [keys_maskIf p m tl]

theorem remove_passwords_lookup (k : String) (d : Node) :
    lookupStr (remove_passwords d) k
      = (lookupStr d k).map
          (fun v => if k.toLower.startsWith "pass" then JValue.str "**secret**" else v) :=
  lookup_maskIf (fun s => s.toLower.startsWith "pass") (JValue.str "**secret**") k d

theorem remove_passwords_keys (d : Node) :
    (remove_passwords d).map Prod.fst = d.map Prod.fst :=
  keys_maskIf (fun s => s.toLower.startsWith "pass") (JValue.str "**secret**") d

theorem writeChunks_take (k : Nat) :
    ∀ (cs : List Char) (acc : String),
      writeChunks (cs.map (fun c => String.singleton c)) (some k) acc
        = acc ++ String.mk (cs.take k) := by
  induction k with
  | zero =>
      intro cs acc
      cases cs with
      | nil => simp [writeChunks, append_mk_nil]
      | cons c tl => simp [writeChunks, append_mk_nil]
  | succ k ih =>
      intro cs acc
      cases cs with
      | nil => simp [writeChunks, append_mk_nil]
      | cons c tl =>
          simp only [List.map_cons, writeChunks, List.take_succ_cons, ih tl]
          rw [append_mk_cons]

theorem writeChunks_all :
    ∀ (cs : List Char) (acc : String),
      writeChunks (cs.map (fun c => String.singleton c)) none acc
        = acc ++ String.mk cs
  | [], acc => by simp [writeChunks, append_mk_nil]
  | c :: tl, acc => by
      simp only [List.map_cons, writeChunks, writeChunks_all tl]
      rw [append_mk_cons]

/-! ## C5: the redactor -/

/-- C5: `_remove_passwords` returns a copy of the node descriptor in which
the value of every key whose name case-insensitively starts with `"pass"` is
replaced by the fixed mask `"**secret**"`, every other key keeps its
original value, and the set and order of keys is unchanged.  (Being a pure
function of the embedding, it cannot and does not mutate its input, which
models the `indict.copy()` of the source.) -/
theorem claim5_redactor (d : Node) (k : String) :
    lookupStr (remove_passwords d) k
      = (lookupStr d k).map
          (fun v => if k.toLower.startsWith "pass" then JValue.str "**secret**" else v)
    ∧ (remove_passwords d).map Prod.fst = d.map Prod.fst :=
  ⟨remove_passwords_lookup k d, remove_passwords_keys d⟩

/-! ## C6: path output versus stream output -/

/-- C6 counterexample: already for the empty report the text written to a
destination path (`json.dump`, no trailing newline) differs from the text
written to the default output stream (`print` appends a newline): `"{}"`
versus `"{}\n"`. -/
theorem claim6_counterexample :
    reportStdoutBytes JObj.nil ≠ reportFileBytes JObj.nil := by
  decide

/-- C6 amended: for every report the two serialization paths agree except
that the stream path carries one extra trailing newline appended by
`print`; consequently the two byte sequences are never identical. -/
theorem claim6_amended (report : JObj) :
    reportStdoutBytes report = reportFileBytes report ++ "\n"
    ∧ reportStdoutBytes report ≠ reportFileBytes report := by
  refine ⟨rfl, fun h => ?_⟩
  have h2 : (reportFileBytes report ++ "\n").length
      = (reportFileBytes report).length := by
    rw [show reportFileBytes report ++ "\n" = reportStdoutBytes report from rfl, h]
  rw [String.length_append] at h2
  have h3 : ("\n" : String).length = 1 := rfl
  omega

/-! ## C9: writing the report to the destination path -/

/-- C9 counterexample: the write is not all-or-nothing.  With no file at the
destination and a failure after the first written chunk, the destination is
left holding `"{"` — neither absent nor the full serialization `"{}"`. -/
theorem claim9_counterexample :
    dumpReportToPath none JObj.nil (some 1) = some "\x7b"
    ∧ dumpReportToPath none JObj.nil (some 1) ≠ none
    ∧ dumpReportToPath none JObj.nil (some 1) ≠ some (reportFileBytes JObj.nil) := by
  refine ⟨rfl, by decide, by decide⟩

/-- C9 amended: `open(outfile, "w")` truncates the destination and
`json.dump` streams the serialization into it, so a run that completes
leaves exactly the serialized report, while a failure after `k` chunks
leaves the length-`k` prefix of the serialized report as a partial file
(whatever the prior contents were). -/
theorem claim9_amended (prior : Option String) (report : JObj) (k : Nat) :
    dumpReportToPath prior report none = some (reportFileBytes report)
    ∧ dumpReportToPath prior report (some k)
        = some (String.mk ((reportFileBytes report).data.take k)) := by
  constructor
  · show some (writeChunks (encoderChunks (reportFileBytes report)) none "")
      = some (reportFileBytes report)
    rw [encoderChunks, writeChunks_all]
    apply congrArg
    apply String.ext
    simp
  · show some (writeChunks (encoderChunks (reportFileBytes report)) (some k) "")
      = some (String.mk ((reportFileBytes report).data.take k))
    rw [encoderChunks, writeChunks_take]
    apply congrArg
    apply String.ext
    simp

/-! ## Dispatch-loop lemmas -/

theorem processNode_noModule (modules : List (String × Worker)) (st : LoopState)
    (node : Node) (h : lookupStr node "module" = none) :
    processNode modules st node = .ok (addErr st .undefinedModule) := by
  simp [processNode, h]

theorem processNode_unknownModule (modules : List (String × Worker)) (st : LoopState)
    (node : Node) (s : String) (hm : lookupStr node "module" = some (.str s))
    (hw : lookupStr modules s = none) :
    processNode modules st node = .ok (addErr st (.unsupportedModule (.str s))) := by
  simp [processNode, hm, hw]

theorem processNode_setNodeError (modules : List (String × Worker)) (st : LoopState)
    (node : Node) (s : String) (wk : Worker) (e : String)
    (hm : lookupStr node "module" = some (.str s))
    (hw : lookupStr modules s = some wk)
    (hs : wk.set_node node = .error e) :
    processNode modules st node = .error e := by
  simp [processNode, hm, hw, hs]

theorem processNode_runError (modules : List (String × Worker)) (st : LoopState)
    (node : Node) (s : String) (wk : Worker) (e : String)
    (hm : lookupStr node "module" = some (.str s))
    (hw : lookupStr modules s = some wk)
    (hs : wk.set_node node = .ok ())
    (hr : wk.run node = .error e) :
    processNode modules st node = .error e := by
  simp [processNode, hm, hw, hs, hr]

theorem processNode_ok (modules : List (String × Worker)) (st : LoopState)
    (node : Node) (s : String) (wk : Worker) (r idv : JValue)
    (hm : lookupStr node "module" = some (.str s))
    (hw : lookupStr modules s = some wk)
    (hs : wk.set_node node = .ok ())
    (hr : wk.run node = .ok r)
    (hi : lookupStr node "id" = some idv) :
    processNode modules st node = .ok ⟨setJ st.output idv r, st.errors, st.fresh⟩ := by
  simp [processNode, hm, hw, hs, hr, hi]

theorem gRun_cons_ok (modules : List (String × Worker)) (st st2 : LoopState)
    (node : Node) (ns : List Node)
    (h : processNode modules st node = .ok st2) :
    gRun modules (node :: ns) st = gRun modules ns st2 := by
  simp [gRun, h]

theorem gRun_cons_error (modules : List (String × Worker)) (st : LoopState)
    (node : Node) (ns : List Node) (e : String)
    (h : processNode modules st node = .error e) :
    gRun modules (node :: ns) st = .error e := by
  simp [gRun, h]

theorem gRun_append (modules : List (String × Worker)) :
    ∀ (xs ys : List Node) (st : LoopState),
      gRun modules (xs ++ ys) st
        = match gRun modules xs st with
          | .ok st2 => gRun modules ys st2
          | .error e => .error e
  | [], ys, st => by simp [gRun]
  | n :: xs, ys, st => by
      show gRun modules (n :: (xs ++ ys)) st = _
      cases hp : processNode modules st n with
      | error e => simp [gRun, hp]
      | ok st2 => simp [gRun, hp, gRun_append modules xs ys st2]

/-! ## C3: per-node skip conditions -/

/-- C3: a node without a `"module"` key, or whose `"module"` value names no
registered provider, contributes nothing to the report (`output` unchanged),
causes exactly one logged error (naming the module in the unknown-module
case), and the loop goes on to process the remaining nodes from that state
unchanged except for the log. -/
theorem claim3_skip_conditions (modules : List (String × Worker)) (st : LoopState)
    (node : Node) (ns : List Node) :
    (lookupStr node "module" = none →
      processNode modules st node = .ok (addErr st .undefinedModule)
      ∧ gRun modules (node :: ns) st = gRun modules ns (addErr st .undefinedModule))
    ∧ (∀ s : String, lookupStr node "module" = some (.str s) →
        lookupStr modules s = none →
        processNode modules st node = .ok (addErr st (.unsupportedModule (.str s)))
        ∧ gRun modules (node :: ns) st
            = gRun modules ns (addErr st (.unsupportedModule (.str s)))) := by
  constructor
  · intro h
    have hp := processNode_noModule modules st node h
    exact ⟨hp, gRun_cons_ok modules st _ node ns hp⟩
  · intro s hm hw
    have hp := processNode_unknownModule modules st node s hm hw
    exact ⟨hp, gRun_cons_ok modules st _ node ns hp⟩

/-- C3 witness: concrete instances — a node with no `"module"` key and a node
naming the unregistered module `"Ghost"` are each skipped with exactly one
logged error, with the loop continuing. -/
theorem claim3_witness :
    (processNode [] initState [("id", JValue.str "n")]
        = .ok (addErr initState .undefinedModule)
      ∧ gRun [] [[("id", JValue.str "n")]] initState
        = gRun [] [] (addErr initState .undefinedModule))
    ∧ (processNode [] initState [("module", JValue.str "Ghost")]
        = .ok (addErr initState (.unsupportedModule (.str "Ghost")))
      ∧ gRun [] [[("module", JValue.str "Ghost")]] initState
        = gRun [] [] (addErr initState (.unsupportedModule (.str "Ghost")))) :=
  ⟨(claim3_skip_conditions [] initState [("id", JValue.str "n")] []).1 rfl,
   (claim3_skip_conditions [] initState [("module", JValue.str "Ghost")] []).2
     "Ghost" rfl rfl⟩

/-! ## C2: node failures and the batch -/

/-- C2 counterexample: the dispatch loop has no try/except, so the
parameter-validation error `SUSECloud.set_node` raises for the first node
aborts the whole batch — the second node, which on its own would be
processed successfully, is never reached and no report is produced. -/
theorem claim2_counterexample :
    gRun c2Modules [c2BadNode, c2GoodNode] initState
      = .error "AttributeError: Not all parameters were provided"
    ∧ gRun c2Modules [c2GoodNode] initState
      = .ok ⟨[(JValue.str "b", JValue.obj .nil)], [], 0⟩ :=
  ⟨rfl, rfl⟩

/-- C2 amended: nodes are processed strictly in order and independence holds
only for the two skip conditions (missing `"module"` key, unknown module
name), which log one error and let the loop continue; an exception raised by
the resolved provider's `set_node` (parameter validation) or `run`
propagates out of the loop and aborts processing of all remaining nodes. -/
theorem claim2_amended (modules : List (String × Worker)) (st : LoopState)
    (node : Node) (ns : List Node) :
    (lookupStr node "module" = none →
      gRun modules (node :: ns) st = gRun modules ns (addErr st .undefinedModule))
    ∧ (∀ s : String, lookupStr node "module" = some (.str s) →
        lookupStr modules s = none →
        gRun modules (node :: ns) st
          = gRun modules ns (addErr st (.unsupportedModule (.str s))))
    ∧ (∀ (s : String) (wk : Worker) (e : String),
        lookupStr node "module" = some (.str s) →
        lookupStr modules s = some wk →
        wk.set_node node = .error e →
        gRun modules (node :: ns) st = .error e)
    ∧ (∀ (s : String) (wk : Worker) (e : String),
        lookupStr node "module" = some (.str s) →
        lookupStr modules s = some wk →
        wk.set_node node = .ok () →
        wk.run node = .error e →
        gRun modules (node :: ns) st = .error e) := by
  refine ⟨fun h => ?_, fun s hm hw => ?_, fun s wk e hm hw hs => ?_,
    fun s wk e hm hw hs hr => ?_⟩
  · exact gRun_cons_ok modules st _ node ns (processNode_noModule modules st node h)
  · exact gRun_cons_ok modules st _ node ns
      (processNode_unknownModule modules st node s hm hw)
  · exact gRun_cons_error modules st node ns e
      (processNode_setNodeError modules st node s wk e hm hw hs)
  · exact gRun_cons_error modules st node ns e
      (processNode_runError modules st node s wk e hm hw hs hr)

/-- C2 witness: the four branches of the amended claim at concrete inputs —
both skip conditions continue the loop, and both exception paths abort the
batch with at least one further node pending. -/
theorem claim2_witness :
    gRun [] [[("id", JValue.str "n")], [("module", JValue.str "Ghost")]] initState
      = gRun [] [[("module", JValue.str "Ghost")]] (addErr initState .undefinedModule)
    ∧ gRun [] [[("module", JValue.str "Ghost")]] initState
      = gRun [] [] (addErr initState (.unsupportedModule (.str "Ghost")))
    ∧ gRun [("M", badSetWorker)]
        [[("module", JValue.str "M")], [("module", JValue.str "Ghost")]] initState
      = .error "boom"
    ∧ gRun [("M", badRunWorker)]
        [[("module", JValue.str "M")], [("module", JValue.str "Ghost")]] initState
      = .error "crash" :=
  ⟨(claim2_amended [] initState [("id", JValue.str "n")]
      [[("module", JValue.str "Ghost")]]).1 rfl,
   (claim2_amended [] initState [("module", JValue.str "Ghost")] []).2.1 "Ghost" rfl rfl,
   (claim2_amended [("M", badSetWorker)] initState [("module", JValue.str "M")]
      [[("module", JValue.str "Ghost")]]).2.2.1 "M" badSetWorker "boom" rfl rfl rfl,
   (claim2_amended [("M", badRunWorker)] initState [("module", JValue.str "M")]
      [[("module", JValue.str "Ghost")]]).2.2.2 "M" badRunWorker "crash" rfl rfl rfl rfl⟩

/-! ## C4: id collisions are last-write-wins -/

/-- C4: if the loop state reached before two successfully processed nodes
with the same explicit `"id"` value holds at most one entry under that id (a
Python dict invariant), then after both nodes the report holds exactly one
entry under that id and its value is the later node's `run` result. -/
theorem claim4_last_write_wins (modules : List (String × Worker))
    (st : LoopState) (ns : List Node) (n1 n2 : Node) (idv : JValue)
    (m1 m2 : String) (w1 w2 : Worker) (r1 r2 : JValue) (st0 : LoopState)
    (hpre : gRun modules ns st = .ok st0)
    (h1m : lookupStr n1 "module" = some (.str m1))
    (h1w : lookupStr modules m1 = some w1)
    (h1s : w1.set_node n1 = .ok ())
    (h1r : w1.run n1 = .ok r1)
    (h1i : lookupStr n1 "id" = some idv)
    (h2m : lookupStr n2 "module" = some (.str m2))
    (h2w : lookupStr modules m2 = some w2)
    (h2s : w2.set_node n2 = .ok ())
    (h2r : w2.run n2 = .ok r2)
    (h2i : lookupStr n2 "id" = some idv)
    (hinv : countKeyJ st0.output idv ≤ 1) :
    ∃ stF : LoopState, gRun modules (ns ++ [n1, n2]) st = .ok stF
      ∧ lookupJ stF.output idv = some r2
      ∧ countKeyJ stF.output idv = 1 := by
  have hrun : gRun modules (ns ++ [n1, n2]) st
      = gRun modules [n1, n2] st0 := by
    rw [gRun_append modules ns [n1, n2] st, hpre]
  have hp1 := processNode_ok modules st0 n1 m1 w1 r1 idv h1m h1w h1s h1r h1i
  set st1 : LoopState := ⟨setJ st0.output idv r1, st0.errors, st0.fresh⟩ with hst1
  have hp2 := processNode_ok modules st1 n2 m2 w2 r2 idv h2m h2w h2s h2r h2i
  refine ⟨⟨setJ st1.output idv r2, st1.errors, st1.fresh⟩, ?_, ?_, ?_⟩
  · rw [hrun, gRun_cons_ok modules st0 st1 n1 [n2] hp1,
      gRun_cons_ok modules st1 _ n2 [] hp2]
    rfl
  · exact lookupJ_setJ_self idv r2 st1.output
  · show countKeyJ (setJ st1.output idv r2) idv = 1
    rw [countKeyJ_setJ, hst1]
    show max 1 (countKeyJ (setJ st0.output idv r1) idv) = 1
    rw [countKeyJ_setJ]
    omega

/-- C4 witness: two nodes with the explicit id `"h"` dispatched to two
different providers; the final report has exactly one entry under `"h"`,
holding the second provider's result. -/
theorem claim4_witness :
    ∃ stF : LoopState,
      gRun [("M1", constWorker1), ("M2", constWorker2)]
        ([] ++ [[("module", JValue.str "M1"), ("id", JValue.str "h")],
                [("module", JValue.str "M2"), ("id", JValue.str "h")]]) initState
        = .ok stF
      ∧ lookupJ stF.output (.str "h") = some (.num 2)
      ∧ countKeyJ stF.output (.str "h") = 1 :=
  claim4_last_write_wins [("M1", constWorker1), ("M2", constWorker2)] initState []
    [("module", JValue.str "M1"), ("id", JValue.str "h")]
    [("module", JValue.str "M2"), ("id", JValue.str "h")]
    (.str "h") "M1" "M2" constWorker1 constWorker2 (.num 1) (.num 2) initState
    rfl rfl rfl rfl rfl rfl rfl rfl rfl rfl rfl (by decide)

/-! ## C8: provider discovery -/

/-- C8: during discovery, a candidate that fails the conformance check
(`issubclass`), or whose load raises one of the caught exception types, or
whose `valid()` self-check is false, is logged and skipped — the registry is
unchanged by it and discovery continues with the remaining candidates —
whereas a candidate whose import raises `ImportError` aborts the whole
discovery phase immediately, whatever candidates remain. -/
theorem claim8_discovery (st : RegState) (c : Candidate) (cs : List Candidate) :
    (c.outcome = .notSubclass →
      loadModules (c :: cs) st
        = loadModules cs { st with errors := st.errors ++ [.notGathererModule c.name] })
    ∧ (c.outcome = .brokenLoad →
      loadModules (c :: cs) st
        = loadModules cs { st with errors := st.errors ++ [.brokenSkipping c.name] })
    ∧ (c.outcome = .invalid →
      loadModules (c :: cs) st
        = loadModules cs { st with errors := st.errors ++ [.brokenAborted c.name] })
    ∧ (c.outcome = .importError →
      loadModules (c :: cs) st = .error (c.name, st)) := by
  refine ⟨fun h => ?_, fun h => ?_, fun h => ?_, fun h => ?_⟩ <;>
    simp [loadModules, loadOne, h]

/-- C8 witness: each discovery outcome at a concrete candidate list with one
further candidate pending — the three rejection outcomes continue with the
registry untouched, the import error aborts before the pending candidate. -/
theorem claim8_witness :
    loadModules [⟨"Bad", .notSubclass⟩, ⟨"Later", .usable constWorker1⟩] ⟨[], []⟩
      = loadModules [⟨"Later", .usable constWorker1⟩] ⟨[], [.notGathererModule "Bad"]⟩
    ∧ loadModules [⟨"Bad", .brokenLoad⟩, ⟨"Later", .usable constWorker1⟩] ⟨[], []⟩
      = loadModules [⟨"Later", .usable constWorker1⟩] ⟨[], [.brokenSkipping "Bad"]⟩
    ∧ loadModules [⟨"Bad", .invalid⟩, ⟨"Later", .usable constWorker1⟩] ⟨[], []⟩
      = loadModules [⟨"Later", .usable constWorker1⟩] ⟨[], [.brokenAborted "Bad"]⟩
    ∧ loadModules [⟨"Bad", .importError⟩, ⟨"Later", .usable constWorker1⟩] ⟨[], []⟩
      = .error ("Bad", ⟨[], []⟩) :=
  ⟨(claim8_discovery ⟨[], []⟩ ⟨"Bad", .notSubclass⟩
      [⟨"Later", .usable constWorker1⟩]).1 rfl,
   (claim8_discovery ⟨[], []⟩ ⟨"Bad", .brokenLoad⟩
      [⟨"Later", .usable constWorker1⟩]).2.1 rfl,
   (claim8_discovery ⟨[], []⟩ ⟨"Bad", .invalid⟩
      [⟨"Later", .usable constWorker1⟩]).2.2.1 rfl,
   (claim8_discovery ⟨[], []⟩ ⟨"Bad", .importError⟩
      [⟨"Later", .usable constWorker1⟩]).2.2.2 rfl⟩

/-! ## C1: error containment inside the providers' `run` -/

/-- C1 counterexample: `SUSECloud.run` has no try/except, so a backend
failure of `hypervisors.list()` propagates out of `run` as an exception
instead of being caught, logged and turned into a partial mapping. -/
theorem claim1_counterexample :
    suseRun suseCfg0 suseFailWorld = .error "Connection refused" := rfl

/-- C1 amended: the two providers differ.  `NutanixAHV.run` contains every
backend error inside its own `try/except Exception`, logs it, and returns
the host mapping gathered so far (empty if the first request already failed,
partial if the failure happened mid-collection); `SUSECloud.run` has no
exception handling at all, so a backend failure propagates out of `run` to
the dispatch loop. -/
theorem claim1_amended :
    (∀ (w : NtxWorld) (e : String), w.hostsResp = .error e → ntxRun w = ([], [e]))
    ∧ ntxRun ntxPartialWorld = (ntxPartialExpected, ["KeyError: num_cpu_sockets"])
    ∧ (∀ (cfg : SuseConfig) (w : SuseWorld) (e : String),
        w.clientInit (suseUrl cfg) = .ok () →
        w.hypervisorsList = .error e →
        suseRun cfg w = .error e) := by
  refine ⟨fun w e h => ?_, rfl, fun cfg w e h1 h2 => ?_⟩
  · have hbody : ntxTryBody w = .error (e, []) := by
      simp [ntxTryBody, h, liftE, Except.bind, bind]
    simp [ntxRun, hbody]
  · simp [suseRun, h1, h2, Except.bind, bind]

/-- C1 witness: the amended claim at concrete worlds — the Nutanix provider
returns the empty mapping and one logged error when the hosts request fails,
and the SUSECloud provider propagates the listing failure. -/
theorem claim1_witness :
    ntxRun ntxFailWorld = ([], ["urlopen error"])
    ∧ suseRun suseCfg0 suseFailWorld = .error "Connection refused" :=
  ⟨claim1_amended.1 ntxFailWorld "urlopen error" rfl,
   claim1_amended.2.2 suseCfg0 suseFailWorld "Connection refused" rfl rfl⟩

/-! ## C10: the `protocol` parameter of SUSECloud -/

theorem lookupStr_setStr {ν : Type} (k : String) (v : ν) :
    ∀ (d : List (String × ν)) (k2 : String),
      lookupStr (setStr d k v) k2 = if k2 = k then some v else lookupStr d k2
  | [], k2 => by
      by_cases h : k2 = k
      · subst h; simp [setStr, lookupStr]
      · have h2 : ¬(k = k2) := fun hh => h hh.symm
        simp [setStr, lookupStr, h, h2]
  | (k1, v1) :: tl, k2 => by
      by_cases h1 : k1 = k
      · subst h1
        by_cases h2 : k2 = k1
        · subst h2; simp [setStr, lookupStr]
        · have h2b : ¬(k1 = k2) := fun hh => h2 hh.symm
          simp [setStr, lookupStr, h2, h2b]
      · by_cases h2 : k2 = k1
        · subst h2
          simp [setStr, lookupStr, h1]
        · have h2b : ¬(k1 = k2) := fun hh => h2 hh.symm
          simp [setStr, lookupStr, h1, h2b, h2, lookupStr_setStr k v tl k2]

theorem suseSetNode_protocol_blind (node : Node) (v1 v2 : JValue) :
    suseSetNode (setStr node "protocol" v1) = suseSetNode (setStr node "protocol" v2) := by
  have h1 : ¬(("hostname" : String) = "protocol") := by decide
  have h2 : ¬(("port" : String) = "protocol") := by decide
  have h3 : ¬(("username" : String) = "protocol") := by decide
  have h4 : ¬(("password" : String) = "protocol") := by decide
  have h5 : ¬(("tenant" : String) = "protocol") := by decide
  simp [suseSetNode, validateParameters, suseDefaultParameters,
    lookupStr_setStr, h1, h2, h3, h4, h5]

/-- C10: `SUSECloud.run` connects to a URL with the fixed scheme `http`
(never `https`), although the provider's default-parameter schema advertises
a `protocol` parameter with default `"https"`; the value of that parameter
is read neither by `set_node` nor by `run`, so it has no effect on the
connection: two nodes that differ only in their `protocol` value produce the
same stored configuration and the same `run` behavior. -/
theorem claim10_protocol_unused :
    lookupStr suseDefaultParameters "protocol" = some (.str "https")
    ∧ (∀ cfg : SuseConfig, List.IsPrefix "http://".data (suseUrl cfg).data)
    ∧ (∀ cfg : SuseConfig, ¬ List.IsPrefix "https://".data (suseUrl cfg).data)
    ∧ (∀ (node : Node) (v1 v2 : JValue),
        suseSetNode (setStr node "protocol" v1)
          = suseSetNode (setStr node "protocol" v2))
    ∧ (∀ (node : Node) (v1 v2 : JValue) (w : SuseWorld),
        (suseWorker w).run (setStr node "protocol" v1)
          = (suseWorker w).run (setStr node "protocol" v2)) := by
  refine ⟨rfl, fun cfg => ?_, fun cfg => ?_, suseSetNode_protocol_blind,
    fun node v1 v2 w => ?_⟩
  · refine ⟨(pyFormat cfg.host ++ ":" ++ pyFormat cfg.port ++ "/v2.0/").data, ?_⟩
    show "http://".data ++ _ = (suseUrl cfg).data
    simp [suseUrl, String.data_append]
  · rintro ⟨t, ht⟩
    have h4 := congrArg (fun l => l.get? 4) ht
    simp [suseUrl, String.data_append, List.get?] at h4
  · show (suseWorker w).run (setStr node "protocol" v1)
      = (suseWorker w).run (setStr node "protocol" v2)
    simp only [suseWorker]
    rw [suseSetNode_protocol_blind node v1 v2]

/-! ## C7: deterministic serialization layout -/

theorem insEntry_perm (kv : String × JValue) :
    ∀ l : List (String × JValue), (insEntry kv l).Perm (kv :: l)
  | [] => List.Perm.refl _
  | hd :: tl => by
      by_cases h : kv.1 ≤ hd.1
      · simp [insEntry, h]
      · simp only [insEntry, if_neg h]
        exact ((insEntry_perm kv tl).cons hd).trans (List.Perm.swap kv hd tl)

theorem isortEntries_perm :
    ∀ l : List (String × JValue), (isortEntries l).Perm l
  | [] => List.Perm.refl _
  | kv :: tl =>
      (insEntry_perm kv (isortEntries tl)).trans ((isortEntries_perm tl).cons kv)

theorem sortedKeys_insEntry (kv : String × JValue) :
    ∀ l : List (String × JValue),
      List.Sorted (fun a b : String => a ≤ b) (l.map Prod.fst) →
      List.Sorted (fun a b : String => a ≤ b) ((insEntry kv l).map Prod.fst)
  | [], _ => by simp [insEntry]
  | hd :: tl, h => by
      rw [List.map_cons, List.sorted_cons] at h
      obtain ⟨hhd, htl⟩ := h
      by_cases hle : kv.1 ≤ hd.1
      · simp only [insEntry, if_pos hle, List.map_cons, List.sorted_cons]
        refine ⟨?_, ?_⟩
        · intro b hb
          rcases List.mem_cons.mp hb with hb1 | hb2
          · exact hb1 ▸ hle
          · exact le_trans hle (hhd b hb2)
        · exact ⟨hhd, htl⟩
      · have hge : hd.1 ≤ kv.1 := le_of_not_le hle
        simp only [insEntry, if_neg hle, List.map_cons, List.sorted_cons]
        refine ⟨?_, sortedKeys_insEntry kv tl htl⟩
        intro b hb
        have hmem : b ∈ (kv :: tl).map Prod.fst :=
          ((insEntry_perm kv tl).map Prod.fst).mem_iff.mp hb
        rw [List.map_cons, List.mem_cons] at hmem
        rcases hmem with hb1 | hb2
        · exact hb1 ▸ hge
        · exact hhd b hb2

theorem sortedKeys_isort :
    ∀ l : List (String × JValue),
      List.Sorted (fun a b : String => a ≤ b) ((isortEntries l).map Prod.fst)
  | [] => by simp [isortEntries]
  | kv :: tl => sortedKeys_insEntry kv (isortEntries tl) (sortedKeys_isort tl)

theorem jobjToList_ofList :
    ∀ l : List (String × JValue), jobjToList (jobjOfList l) = l
  | [] => rfl
  | (k, v) :: tl => by simp [jobjOfList, jobjToList, jobjToList_ofList tl]

theorem jobjKeys_toList :
    ∀ o : JObj, jobjKeys o = (jobjToList o).map Prod.fst
  | .nil => rfl
  | .cons k v tl => by simp [jobjKeys, jobjToList, jobjKeys_toList tl]

theorem jobjKeys_sortJsonObj :
    ∀ o : JObj, jobjKeys (sortJsonObj o) = jobjKeys o
  | .nil => rfl
  | .cons k v tl => by simp [sortJsonObj, jobjKeys, jobjKeys_sortJsonObj tl]

theorem allEntriesSorted_insEntry (kv : String × JValue) :
    ∀ l : List (String × JValue),
      allEntriesSorted (insEntry kv l)
        = (allKeysSortedVal kv.2 && allEntriesSorted l)
  | [] => by simp [insEntry, allEntriesSorted]
  | hd :: tl => by
      by_cases h : kv.1 ≤ hd.1
      · simp [insEntry, h, allEntriesSorted, List.all_cons]
      · simp only [insEntry, if_neg h]
        rw [show allEntriesSorted (hd :: insEntry kv tl)
              = (allKeysSortedVal hd.2 && allEntriesSorted (insEntry kv tl)) from rfl,
            allEntriesSorted_insEntry kv tl,
            show allEntriesSorted (hd :: tl)
              = (allKeysSortedVal hd.2 && allEntriesSorted tl) from rfl]
        cases allKeysSortedVal hd.2 <;> cases allKeysSortedVal kv.2 <;> simp

theorem allEntriesSorted_isort :
    ∀ l : List (String × JValue),
      allEntriesSorted (isortEntries l) = allEntriesSorted l
  | [] => rfl
  | kv :: tl => by
      show allEntriesSorted (insEntry kv (isortEntries tl))
        = allEntriesSorted (kv :: tl)
      rw [allEntriesSorted_insEntry kv (isortEntries tl), allEntriesSorted_isort tl]
      rfl

theorem allKeysSortedObj_toList :
    ∀ o : JObj, allKeysSortedObj o = allEntriesSorted (jobjToList o)
  | .nil => rfl
  | .cons k v tl => by
      simp [allKeysSortedObj, jobjToList, allEntriesSorted, List.all_cons,
        allKeysSortedObj_toList tl]

mutual
/-- After `sortJson`, every object of the tree has sorted keys. -/
theorem sortJson_allSorted : ∀ v : JValue, allKeysSortedVal (sortJson v) = true
  | .null => rfl
  | .bool b => rfl
  | .num n => rfl
  | .flt q => rfl
  | .str s => rfl
  | .arr xs => by simp [sortJson, allKeysSortedVal, sortJsonList_allSorted xs]
  | .obj o => by
      simp only [sortJson, allKeysSortedVal, Bool.and_eq_true]
      constructor
      · rw [decide_eq_true_eq, sortEntries, jobjKeys_toList, jobjToList_ofList]
        exact sortedKeys_isort (jobjToList (sortJsonObj o))
      · rw [allKeysSortedObj_toList, sortEntries, jobjToList_ofList,
          allEntriesSorted_isort, ← allKeysSortedObj_toList]
        exact sortJsonObj_allSorted o

/-- `sortJson_allSorted` on array spines. -/
theorem sortJsonList_allSorted :
    ∀ xs : JList, allKeysSortedList (sortJsonList xs) = true
  | .nil => rfl
  | .cons hd tl => by
      simp [sortJsonList, allKeysSortedList, sortJson_allSorted hd,
        sortJsonList_allSorted tl]

/-- `sortJson_allSorted` on object spines. -/
theorem sortJsonObj_allSorted :
    ∀ o : JObj, allKeysSortedObj (sortJsonObj o) = true
  | .nil => rfl
  | .cons k v tl => by
      simp [sortJsonObj, allKeysSortedObj, sortJson_allSorted v,
        sortJsonObj_allSorted tl]
end

/-- C7: the serialized output has a fixed deterministic layout.  In
collection mode the report is emitted as the key-sorted tree (top-level keys
sorted lexicographically and, recursively, every nested object too — same
entries, only reordered); in module-listing mode entries are emitted exactly
in insertion order; and in both modes an object body renders one entry per
line with 4-space-per-level indentation and the `": "` key-value
separator. -/
theorem claim7_layout (report mods : JObj) (k : String) (v : JValue) (tl : JObj) :
    reportFileBytes report = render (.obj (sortEntries (sortJsonObj report))) 0
    ∧ List.Sorted (fun a b : String => a ≤ b)
        (jobjKeys (sortEntries (sortJsonObj report)))
    ∧ (jobjToList (sortEntries (sortJsonObj report))).Perm
        (jobjToList (sortJsonObj report))
    ∧ jobjKeys (sortJsonObj report) = jobjKeys report
    ∧ allKeysSortedVal (sortJson (.obj report)) = true
    ∧ listingFileBytes mods = render (.obj mods) 0
    ∧ render (.obj (.cons k v tl)) 0
        = "\x7b\n" ++ joinSep ",\n" (renderEntries (.cons k v tl) 1)
          ++ "\n" ++ pad 0 ++ "\x7d"
    ∧ renderEntries (.cons k v tl) 1
        = (pad 1 ++ quoteStr k ++ ": " ++ render v 1) :: renderEntries tl 1
    ∧ pad 1 = "    " := by
  refine ⟨rfl, ?_, ?_, jobjKeys_sortJsonObj report,
    sortJson_allSorted (.obj report), rfl, rfl, rfl, rfl⟩
  · rw [sortEntries, jobjKeys_toList, jobjToList_ofList]
    exact sortedKeys_isort _
  · rw [sortEntries, jobjToList_ofList]
    exact isortEntries_perm _

end Gatherer
